import Mathlib

/-!
Verification of the interview-spawner simulation core: a shallow embedding of
`simulation_manager.py`, `ai_interviewer.py`, `persona_generator.py` and
`insight_aggregator.py`. External text-generation calls are modelled as
oracle outcomes (success with a payload, or a service error), matching the
contract-level treatment of the LLM boundary: every call site receives its
outcome from an environment and the surrounding control flow is translated
faithfully from the Python source.
-/

namespace InterviewSpawner

/-! ## External call outcomes (contract level) -/

/-- Outcome of one raw text-generation call: payload text or a service error. -/
inductive GenOut where
  | err (msg : String)
  | ok (text : String)
deriving DecidableEq

/-- Outcome of the insight-extraction call, after the best-effort parse of the
numbered list (the parsing heuristics are outside the specified core, so the
oracle delivers the parsed items directly). -/
inductive InsightsOut where
  | err (msg : String)
  | ok (items : List String)
deriving DecidableEq

/-! ## Persona data model (`persona_generator.py`) -/

/-- `Persona` pydantic model: all attributes are required. -/
structure Persona where
  id : String
  name : String
  age : Int
  gender : String
  occupation : String
  location : String
  demographics : List (String × String)
  behaviors : List String
  goals : List String
  pain_points : List String
  motivations : List String
  challenges : List String
  personality : List (String × String)
  background : String
  description : String
deriving DecidableEq

/-- Field values appearing in a persona dictionary. -/
inductive PVal where
  | s (v : String)
  | i (v : Int)
  | ls (v : List String)
  | m (v : List (String × String))
deriving DecidableEq

/-- `Persona.dict()`: the dictionary form of a persona. -/
def Persona.to_dict (p : Persona) : List (String × PVal) :=
  [("id", .s p.id), ("name", .s p.name), ("age", .i p.age),
   ("gender", .s p.gender), ("occupation", .s p.occupation),
   ("location", .s p.location), ("demographics", .m p.demographics),
   ("behaviors", .ls p.behaviors), ("goals", .ls p.goals),
   ("pain_points", .ls p.pain_points), ("motivations", .ls p.motivations),
   ("challenges", .ls p.challenges), ("personality", .m p.personality),
   ("background", .s p.background), ("description", .s p.description)]

/-- The required fields checked by `generate_persona_from_outline`. -/
def required_fields : List String :=
  ["name", "age", "gender", "occupation", "location",
   "demographics", "behaviors", "goals", "pain_points",
   "motivations", "challenges", "personality",
   "background", "description"]

/-- A persona record carries every required attribute in its dictionary. -/
def personaFieldsComplete (p : Persona) : Prop :=
  ∀ f ∈ required_fields, ∃ v, (f, v) ∈ p.to_dict

/-! ## Conversation data model (`ai_interviewer.py`) -/

/-- One message of a conversation. -/
structure Message where
  role : String
  content : String
  timestamp : Nat
deriving DecidableEq

/-- A conversation between the interviewer and one persona. -/
structure Conversation where
  id : String
  persona_id : String
  messages : List Message
  is_active : Bool
  insights : List String
  summary : Option String
deriving DecidableEq

/-- `Conversation.add_message`: append one message. -/
def Conversation.add_message (c : Conversation) (role content : String)
    (timestamp : Nat) : Conversation :=
  { c with messages := c.messages ++ [⟨role, content, timestamp⟩] }

/-- Fixed placeholder used when the persona-response call fails. -/
def persona_placeholder : String :=
  "I\x27m sorry, I\x27m having trouble articulating my thoughts right now."

/-- Fixed placeholder used when the interviewer-response call fails. -/
def interviewer_placeholder : String :=
  "That\x27s interesting. Could you tell me more about that?"

/-- `AIInterviewer.generate_persona_response`: payload on success, fixed
placeholder sentence on any failure. -/
def generate_persona_response (out : GenOut) : String :=
  match out with
  | .ok t => t
  | .err _ => persona_placeholder

/-- `AIInterviewer.generate_interviewer_response`. -/
def generate_interviewer_response (out : GenOut) : String :=
  match out with
  | .ok t => t
  | .err _ => interviewer_placeholder

/-- The deterministic fallback opening used when the initial-message call
fails. -/
def fallback_opening (context : String) (p : Persona) : String :=
  "Hello " ++ p.name ++
  ", thank you for joining me today. I\x27d like to learn about your experiences with "
  ++ context ++ ". Could you start by telling me about any challenges you face in this area?"

/-- `AIInterviewer._generate_initial_message`. -/
def generate_initial_message (out : GenOut) (context : String) (p : Persona) : String :=
  match out with
  | .ok t => t
  | .err _ => fallback_opening context p

/-- `AIInterviewer.start_conversation`: fresh conversation holding exactly the
opening interviewer message. -/
def start_conversation (out : GenOut) (context : String) (p : Persona)
    (cid : String) (ts : Nat) : Conversation :=
  (Conversation.mk cid p.id [] true [] none).add_message
    "interviewer" (generate_initial_message out context p) ts

/-- Fixed text returned by `generate_summary` for short conversations. -/
def not_enough_content : String :=
  "Conversation not long enough to generate a meaningful summary."

/-- Fixed text returned by `generate_summary` when the call fails. -/
def summary_error_text : String :=
  "Unable to generate summary due to an error."

/-- `AIInterviewer.generate_insights`; the second component counts the
text-generation calls made. -/
def generate_insights (out : InsightsOut) (c : Conversation) : List String × Nat :=
  if c.messages.length < 3 then ([], 0)
  else
    match out with
    | .err _ => ([], 1)
    | .ok items => (items, 1)

/-- `AIInterviewer.generate_summary`; the second component counts the
text-generation calls made. -/
def generate_summary (out : GenOut) (c : Conversation) : String × Nat :=
  if c.messages.length < 4 then (not_enough_content, 0)
  else
    match out with
    | .err _ => (summary_error_text, 1)
    | .ok t => (t, 1)

/-- Oracle outcomes for all calls made while driving one conversation,
indexed by the message count at the moment of the call. -/
structure InterviewEnv where
  initial_out : GenOut
  persona_out : Nat → GenOut
  interviewer_out : Nat → GenOut
  insights_out : Nat → InsightsOut
  summary_out : GenOut

/-- The message-appending half of one iteration of `run_conversation` in
`simulation_manager.py`: persona speaks when the count is odd, the
interviewer when it is even. -/
def append_turn_message (env : InterviewEnv) (conv : Conversation) (ts : Nat) :
    Conversation :=
  if conv.messages.length % 2 = 1 then
    conv.add_message "persona"
      (generate_persona_response (env.persona_out conv.messages.length)) ts
  else
    conv.add_message "interviewer"
      (generate_interviewer_response (env.interviewer_out conv.messages.length)) ts

/-- One full iteration of the turn loop: append one message, then re-extract
and overwrite the insight list when the new count is an even number ≥ 6. -/
def run_turn (env : InterviewEnv) (conv : Conversation) (ts : Nat) : Conversation :=
  let c1 := append_turn_message env conv ts
  if 6 ≤ c1.messages.length ∧ c1.messages.length % 2 = 0 then
    { c1 with insights := (generate_insights (env.insights_out c1.messages.length) c1).1 }
  else c1

/-- The turn loop run for a given number of iterations (the iterations the
thread performs before `max_turns` is reached or a stop is observed). -/
def run_turns (env : InterviewEnv) : Nat → Conversation → Conversation
  | 0, c => c
  | Nat.succ k, c => run_turns env k (run_turn env c c.messages.length)

/-- `run_conversation`: drive the loop, then generate and set the summary. -/
def run_conversation (env : InterviewEnv) (turns : Nat) (c0 : Conversation) :
    Conversation :=
  let c := run_turns env turns c0
  { c with summary := some (generate_summary env.summary_out c).1 }

/-- The role expected at each position: interviewer at even indices. -/
def rolePattern (n : Nat) : List String :=
  (List.range n).map (fun i => if i % 2 = 0 then "interviewer" else "persona")

/-- Roles strictly alternate beginning with "interviewer". -/
def rolesAlternate (msgs : List Message) : Prop :=
  msgs.map (fun m => m.role) = rolePattern msgs.length

instance (msgs : List Message) : Decidable (rolesAlternate msgs) := by
  unfold rolesAlternate; infer_instance

/-! ### Helper lemmas for the turn-taking invariant -/

theorem rolePattern_succ (n : Nat) :
    rolePattern (n + 1) =
      rolePattern n ++ [if n % 2 = 0 then "interviewer" else "persona"] := by
  simp [rolePattern, List.range_succ]

theorem run_turn_messages (env : InterviewEnv) (conv : Conversation) (ts : Nat) :
    (run_turn env conv ts).messages = (append_turn_message env conv ts).messages := by
  simp only [run_turn]
  split <;> rfl

theorem append_turn_message_spec (env : InterviewEnv) (conv : Conversation) (ts : Nat) :
    ∃ content,
      (append_turn_message env conv ts).messages =
        conv.messages ++
          [⟨if conv.messages.length % 2 = 1 then "persona" else "interviewer",
            content, ts⟩] := by
  unfold append_turn_message
  split <;> rename_i h <;> simp [h, Conversation.add_message]

theorem rolesAlternate_append (msgs : List Message) (content : String) (ts : Nat)
    (h : rolesAlternate msgs) :
    rolesAlternate (msgs ++
      [⟨if msgs.length % 2 = 1 then "persona" else "interviewer", content, ts⟩]) := by
  unfold rolesAlternate at h ⊢
  rw [List.length_append, List.map_append]
  simp only [List.length_singleton, rolePattern_succ, List.map_cons, List.map_nil, h]
  rcases Nat.mod_two_eq_zero_or_one msgs.length with h2 | h2 <;> simp [h2]

theorem rolesAlternate_get (msgs : List Message) (h : rolesAlternate msgs)
    (i : Nat) (hi : i < msgs.length) :
    (msgs.get ⟨i, hi⟩).role = if i % 2 = 0 then "interviewer" else "persona" := by
  have h2 := congrArg (fun l => l[i]?) h
  simp only [List.getElem?_map] at h2
  rw [List.getElem?_eq_getElem hi] at h2
  have hr : (rolePattern msgs.length)[i]? =
      some (if i % 2 = 0 then "interviewer" else "persona") := by
    rw [rolePattern, List.getElem?_map, List.getElem?_range hi]
    rfl
  rw [hr] at h2
  simpa using h2

/-- Example data used by witness theorems. -/
def samplePersona : Persona :=
  ⟨"p1", "Alice", 30, "F", "Product Manager", "Berlin",
   [], [], [], [], [], [], [], "background", "desc"⟩

/-- An all-failing interview oracle (used by witnesses and scenario 3). -/
def allFailInterviewEnv : InterviewEnv :=
  ⟨.err "ServiceError", fun _ => .err "ServiceError", fun _ => .err "ServiceError",
   fun _ => .err "ServiceError", .err "ServiceError"⟩

/-- Example conversation with one message. -/
def sampleConv : Conversation :=
  start_conversation (.err "ServiceError") "dog walking app" samplePersona "c1" 0

/-- Example conversation with two messages. -/
def sampleConv2 : Conversation := run_turn allFailInterviewEnv sampleConv 1

/-- C1: message roles strictly alternate beginning with "interviewer": the
conversation produced by `start_conversation` holds exactly one interviewer
message; every turn step appends exactly one message whose role is "persona"
when the current count is odd and "interviewer" when it is even; and in any
alternating conversation no two consecutive messages share a role. -/
theorem claim_roles_alternate :
    (∀ out context p cid ts,
        (start_conversation out context p cid ts).messages.length = 1 ∧
        rolesAlternate (start_conversation out context p cid ts).messages) ∧
    (∀ env conv ts, rolesAlternate conv.messages →
        (run_turn env conv ts).messages.length = conv.messages.length + 1 ∧
        (∃ content ts2, (run_turn env conv ts).messages = conv.messages ++
            [⟨if conv.messages.length % 2 = 1 then "persona" else "interviewer",
              content, ts2⟩]) ∧
        rolesAlternate (run_turn env conv ts).messages) ∧
    (∀ msgs, rolesAlternate msgs → ∀ i, (h : i + 1 < msgs.length) →
        (msgs.get ⟨i, Nat.lt_of_succ_lt h⟩).role ≠ (msgs.get ⟨i + 1, h⟩).role) := by
  refine ⟨?_, ?_, ?_⟩
  · intro out context p cid ts
    constructor
    · rfl
    · simp [rolesAlternate, start_conversation, Conversation.add_message,
        rolePattern, List.range_succ]
  · intro env conv ts h
    obtain ⟨content, hc⟩ := append_turn_message_spec env conv ts
    rw [run_turn_messages, hc]
    refine ⟨by simp, ⟨content, ts, rfl⟩, ?_⟩
    exact rolesAlternate_append conv.messages content ts h
  · intro msgs h i hlt
    have hi := Nat.lt_of_succ_lt hlt
    rw [rolesAlternate_get msgs h i hi, rolesAlternate_get msgs h (i + 1) hlt]
    rcases Nat.mod_two_eq_zero_or_one i with h2 | h2
    · have h3 : (i + 1) % 2 = 1 := by omega
      simp only [h2, h3, if_pos rfl]
      decide
    · have h3 : (i + 1) % 2 = 0 := by omega
      simp only [h2, h3]
      decide

theorem claim_roles_alternate_witness :
    ((run_turn allFailInterviewEnv sampleConv 1).messages.length =
        sampleConv.messages.length + 1 ∧
      rolesAlternate (run_turn allFailInterviewEnv sampleConv 1).messages) ∧
    (sampleConv2.messages.get ⟨0, by decide⟩).role ≠
      (sampleConv2.messages.get ⟨1, by decide⟩).role :=
  ⟨⟨(claim_roles_alternate.2.1 allFailInterviewEnv sampleConv 1 (by decide)).1,
    (claim_roles_alternate.2.1 allFailInterviewEnv sampleConv 1 (by decide)).2.2⟩,
   claim_roles_alternate.2.2 sampleConv2.messages (by decide) 0 (by decide)⟩

/-- C8: with fewer than 3 messages, `generate_insights` returns the empty
list and makes no call; with fewer than 4, `generate_summary` returns the
fixed placeholder and makes no call (the second component counts calls). -/
theorem claim_short_conversation_guards (out : InsightsOut) (out2 : GenOut)
    (c : Conversation) :
    (c.messages.length < 3 → generate_insights out c = ([], 0)) ∧
    (c.messages.length < 4 → generate_summary out2 c = (not_enough_content, 0)) := by
  constructor
  · intro h
    simp [generate_insights, h]
  · intro h
    simp [generate_summary, h]

theorem claim_short_conversation_guards_witness :
    generate_insights (.ok ["x"]) sampleConv = ([], 0) ∧
    generate_summary (.ok "t") sampleConv = (not_enough_content, 0) :=
  ⟨(claim_short_conversation_guards (.ok ["x"]) (.ok "t") sampleConv).1 (by decide),
   (claim_short_conversation_guards (.ok ["x"]) (.ok "t") sampleConv).2 (by decide)⟩

theorem append_turn_message_insights (env : InterviewEnv) (conv : Conversation)
    (ts : Nat) : (append_turn_message env conv ts).insights = conv.insights := by
  unfold append_turn_message
  split <;> rfl

/-- C9: a turn step appends exactly one message; when the new message count is
an even number ≥ 6 the conversation insight list is replaced wholesale by the
freshly extracted result, and at every other count it is left unchanged. -/
theorem claim_insight_overwrite (env : InterviewEnv) (conv : Conversation) (ts : Nat) :
    (run_turn env conv ts).messages.length = conv.messages.length + 1 ∧
    (6 ≤ (append_turn_message env conv ts).messages.length ∧
        (append_turn_message env conv ts).messages.length % 2 = 0 →
      (run_turn env conv ts).insights =
        (generate_insights
          (env.insights_out (append_turn_message env conv ts).messages.length)
          (append_turn_message env conv ts)).1) ∧
    (¬(6 ≤ (append_turn_message env conv ts).messages.length ∧
        (append_turn_message env conv ts).messages.length % 2 = 0) →
      (run_turn env conv ts).insights = conv.insights) := by
  refine ⟨?_, ?_, ?_⟩
  · obtain ⟨content, hc⟩ := append_turn_message_spec env conv ts
    rw [run_turn_messages, hc]
    simp
  · intro h
    simp only [run_turn, if_pos h]
  · intro h
    simp only [run_turn, if_neg h]
    exact append_turn_message_insights env conv ts

/-- Example conversation with five messages. -/
def sampleConv5 : Conversation := run_turns allFailInterviewEnv 4 sampleConv

theorem claim_insight_overwrite_witness :
    (run_turn allFailInterviewEnv sampleConv5 5).insights =
      (generate_insights
        (allFailInterviewEnv.insights_out
          (append_turn_message allFailInterviewEnv sampleConv5 5).messages.length)
        (append_turn_message allFailInterviewEnv sampleConv5 5)).1 ∧
    (run_turn allFailInterviewEnv sampleConv 1).insights = sampleConv.insights :=
  ⟨(claim_insight_overwrite allFailInterviewEnv sampleConv5 5).2.1 (by decide),
   (claim_insight_overwrite allFailInterviewEnv sampleConv 1).2.2 (by decide)⟩

/-! ## Insight aggregation (`insight_aggregator.py`) -/

/-- A raw insight record collected by `_aggregate_insights`. -/
structure RawInsight where
  insight : String
  persona_id : String
  persona_name : String
  conversation_id : String
deriving DecidableEq

/-- A JSON scalar holding a candidate confidence value. -/
inductive CVal where
  | int (n : Int)
  | str (v : String)
  | other
deriving DecidableEq

/-- A candidate aggregated-insight record, as parsed from model output: any
field may be missing. -/
structure AggInsight where
  theme : Option String
  description : Option String
  evidence : Option String
  impact : Option String
  confidence : Option CVal
deriving DecidableEq

/-- Python `int(x)` as applied by `_validate_insight`: identity on integers,
string-to-integer parse on strings, failure (ValueError/TypeError) otherwise. -/
def pyInt : CVal → Option Int
  | .int n => some n
  | .str v => v.trim.toInt?
  | .other => none

/-- `InsightAggregator._validate_insight`: all five fields present and the
confidence parses as an integer in [1,5]. -/
def validate_insight (c : AggInsight) : Bool :=
  c.theme.isSome && c.description.isSome && c.evidence.isSome && c.impact.isSome &&
    (match c.confidence with
     | none => false
     | some v =>
       match pyInt v with
       | none => false
       | some n => decide (1 ≤ n) && decide (n ≤ 5))

/-- Python `str.lower()`. -/
def pyLower (s : String) : String := String.mk (s.data.map Char.toLower)

/-- Helper for Python `str.split()`: split a character list on whitespace
runs, dropping empty words; `acc` is the current word reversed. -/
def pyWordsAux : List Char → List Char → List (List Char)
  | [], acc => if acc.isEmpty then [] else [acc.reverse]
  | c :: cs, acc =>
    if c.isWhitespace then
      if acc.isEmpty then pyWordsAux cs [] else acc.reverse :: pyWordsAux cs []
    else pyWordsAux cs (c :: acc)

/-- Python `str.split()` with no argument. -/
def pySplitWs (s : String) : List String := (pyWordsAux s.data []).map String.mk

/-- Character-list prefix test. -/
def isPrefixOfChars : List Char → List Char → Bool
  | [], _ => true
  | _ :: _, [] => false
  | a :: as, b :: bs => a == b && isPrefixOfChars as bs

/-- Helper for the substring test: does `n` occur in the second list? -/
def substrAux (n : List Char) : List Char → Bool
  | [] => isPrefixOfChars n []
  | b :: bs => isPrefixOfChars n (b :: bs) || substrAux n bs

/-- Python `needle in haystack` on strings: substring containment. -/
def pySubstr (needle haystack : String) : Bool := substrAux needle.data haystack.data

/-- Python `str.capitalize()`: first character upper-cased, rest lower. -/
def pyCapitalize (s : String) : String :=
  match s.data with
  | [] => s
  | c :: cs => String.mk (c.toUpper :: cs.map Char.toLower)

/-- `" ".join(insight_text.split()[:3])`: the key of a new group. -/
def first_three_key (text : String) : String :=
  String.intercalate " " ((pySplitWs text).take 3)

/-- `any(word in insight_text for word in group_key.split())`. -/
def key_match (group_key insight_text : String) : Bool :=
  (pySplitWs group_key).any (fun w => pySubstr w insight_text)

/-- Place one insight in the first group whose key lexically overlaps its
lowered text, else open a new group at the end (dict insertion order). -/
def insert_into_groups (ins : RawInsight) :
    List (String × List RawInsight) → List (String × List RawInsight)
  | [] => [(first_three_key (pyLower ins.insight), [ins])]
  | (k, g) :: rest =>
    if key_match k (pyLower ins.insight) then (k, g ++ [ins]) :: rest
    else (k, g) :: insert_into_groups ins rest

/-- The grouping pass of `InsightAggregator._fallback_aggregation`. -/
def fallback_groups (insights : List RawInsight) :
    List (String × List RawInsight) :=
  insights.foldl (fun gs i => insert_into_groups i gs) []

/-- `InsightAggregator._fallback_aggregation`: one record per group. -/
def fallback_aggregation (insights : List RawInsight) : List AggInsight :=
  (fallback_groups insights).map (fun kg =>
    { theme := some (pyCapitalize kg.1),
      description := some ((kg.2.headD ⟨"", "", "", ""⟩).insight),
      evidence := some ("Mentioned by " ++ toString kg.2.length ++ " personas"),
      impact := some "Requires further analysis",
      confidence := some (.int (min (kg.2.length : Int) 5)) })

/-- Outcome of the aggregation call plus best-effort JSON extraction: service
or parse failure, a parsed non-array value without an "insights" key, or a
parsed candidate array (possibly unwrapped from an "insights" key). -/
inductive AggOut where
  | fail (msg : String)
  | nonList
  | parsed (cands : List AggInsight)
deriving DecidableEq

/-- `InsightAggregator.aggregate_insights`. -/
def aggregate_insights (out : AggOut) (insights : List RawInsight) :
    List AggInsight :=
  if insights.isEmpty then []
  else
    match out with
    | .fail _ => fallback_aggregation insights
    | .nonList => []
    | .parsed cands =>
      let validated := cands.filter validate_insight
      if validated.isEmpty && !cands.isEmpty then fallback_aggregation insights
      else validated

/-! ### Lemmas about the fallback grouping -/

theorem insert_into_groups_nonempty (ins : RawInsight)
    (gs : List (String × List RawInsight)) (h : ∀ kg ∈ gs, kg.2 ≠ []) :
    ∀ kg ∈ insert_into_groups ins gs, kg.2 ≠ [] := by
  induction gs with
  | nil =>
    intro kg hkg
    simp only [insert_into_groups, List.mem_singleton] at hkg
    subst hkg
    simp
  | cons head rest ih =>
    obtain ⟨k, g⟩ := head
    intro kg hkg
    simp only [insert_into_groups] at hkg
    split at hkg
    · rcases List.mem_cons.mp hkg with h1 | h1
      · subst h1; simp
      · exact h _ (List.mem_cons_of_mem _ h1)
    · rcases List.mem_cons.mp hkg with h1 | h1
      · subst h1
        exact h _ (List.mem_cons_self _ _)
      · exact ih (fun x hx => h x (List.mem_cons_of_mem _ hx)) _ h1

theorem fallback_groups_nonempty (l : List RawInsight) :
    ∀ kg ∈ fallback_groups l, kg.2 ≠ [] := by
  have key : ∀ (l : List RawInsight) (gs : List (String × List RawInsight)),
      (∀ kg ∈ gs, kg.2 ≠ []) →
      ∀ kg ∈ l.foldl (fun gs i => insert_into_groups i gs) gs, kg.2 ≠ [] := by
    intro l
    induction l with
    | nil => intro gs h; simpa using h
    | cons i rest ih =>
      intro gs h
      exact ih _ (insert_into_groups_nonempty i gs h)
  exact key l [] (by simp)

theorem fallback_aggregation_validated (l : List RawInsight) :
    ∀ c ∈ fallback_aggregation l, validate_insight c = true := by
  intro c hc
  simp only [fallback_aggregation, List.mem_map] at hc
  obtain ⟨kg, hkg, rfl⟩ := hc
  have hne := fallback_groups_nonempty l kg hkg
  have hpos : 1 ≤ kg.2.length := by
    cases hl : kg.2 with
    | nil => exact absurd hl hne
    | cons a t => simp [hl]
  simp only [validate_insight, pyInt, Option.isSome_some, Bool.and_self,
    Bool.true_and]
  have h1 : (1 : Int) ≤ min (kg.2.length : Int) 5 := by
    rcases min_cases (kg.2.length : Int) 5 with ⟨he, _⟩ | ⟨he, _⟩ <;> rw [he] <;> omega
  have h5 : min (kg.2.length : Int) 5 ≤ 5 := min_le_right _ _
  simp [h1, h5]

/-- The concatenation of all groups. -/
def groupsFlatten (gs : List (String × List RawInsight)) : List RawInsight :=
  gs.flatMap (fun kg => kg.2)

theorem insert_into_groups_flatten_perm (ins : RawInsight)
    (gs : List (String × List RawInsight)) :
    (groupsFlatten (insert_into_groups ins gs)).Perm (ins :: groupsFlatten gs) := by
  induction gs with
  | nil => simp [insert_into_groups, groupsFlatten]
  | cons head rest ih =>
    obtain ⟨k, g⟩ := head
    simp only [insert_into_groups]
    split
    · simp only [groupsFlatten, List.flatMap_cons, List.append_assoc,
        List.singleton_append]
      exact List.perm_middle
    · simp only [groupsFlatten, List.flatMap_cons]
      have h1 : (groupsFlatten (insert_into_groups ins rest)).Perm
          (ins :: groupsFlatten rest) := ih
      have h2 := List.Perm.append_left g h1
      simpa [groupsFlatten] using h2.trans List.perm_middle

theorem fallback_groups_flatten_perm (l : List RawInsight) :
    (groupsFlatten (fallback_groups l)).Perm l := by
  have key : ∀ (l : List RawInsight) (gs : List (String × List RawInsight)),
      (groupsFlatten (l.foldl (fun gs i => insert_into_groups i gs) gs)).Perm
        (groupsFlatten gs ++ l) := by
    intro l
    induction l with
    | nil => intro gs; simp
    | cons i rest ih =>
      intro gs
      have h1 := ih (insert_into_groups i gs)
      have h2 := (insert_into_groups_flatten_perm i gs).append_right rest
      exact (h1.trans h2).trans List.perm_middle.symm
  simpa [fallback_groups, groupsFlatten] using key l []

/-- Two insights end up in one group of the fallback partition. -/
def same_group (l : List RawInsight) (a b : RawInsight) : Bool :=
  (fallback_groups l).any (fun kg => kg.2.contains a && kg.2.contains b)

/-- Concrete insight records for the order-dependence counterexample. -/
def cexA : RawInsight := ⟨"a", "p1", "P1", "c1"⟩

def cexB : RawInsight := ⟨"b", "p2", "P2", "c2"⟩

def cexC : RawInsight := ⟨"a b", "p3", "P3", "c3"⟩

/-- The same multiset of insights in two presentation orders. -/
def cexL1 : List RawInsight := [cexA, cexB, cexC]

def cexL2 : List RawInsight := [cexB, cexA, cexC]

/-- C6 counterexample: `_fallback_aggregation` is NOT order-independent. The
lists `cexL1` and `cexL2` hold the same multiset of raw insights, yet in the
first order the insights "a" and "a b" share a group while in the second
order they do not (there "a b" is captured by the group keyed "b"), so the
group membership differs between the two presentation orders. -/
theorem claim_fallback_order_cex :
    cexL2.Perm cexL1 ∧
    same_group cexL1 cexA cexC = true ∧
    same_group cexL2 cexA cexC = false :=
  ⟨by decide, by decide, by decide⟩

/-- C6 amended: for any two presentation orders of the same multiset of raw
insight records, `_fallback_aggregation` distributes exactly that multiset of
insights over its groups (the union of the groups is a permutation of the
input), but the group membership itself may depend on the presentation
order. -/
theorem claim_fallback_aggregation_partition (l1 l2 : List RawInsight)
    (h : l1.Perm l2) :
    (groupsFlatten (fallback_groups l1)).Perm l1 ∧
    (groupsFlatten (fallback_groups l1)).Perm (groupsFlatten (fallback_groups l2)) :=
  ⟨fallback_groups_flatten_perm l1,
   (fallback_groups_flatten_perm l1).trans
     (h.trans (fallback_groups_flatten_perm l2).symm)⟩

theorem claim_fallback_aggregation_partition_witness :
    (groupsFlatten (fallback_groups cexL1)).Perm cexL1 ∧
    (groupsFlatten (fallback_groups cexL1)).Perm (groupsFlatten (fallback_groups cexL2)) :=
  claim_fallback_aggregation_partition cexL1 cexL2 (by decide)

/-- C7: on the model path every returned record passes `_validate_insight`
(all five fields present, confidence an integer in [1,5]); invalid candidate
records are dropped silently; and when validation drops every candidate of a
non-empty candidate set, the deterministic grouping fallback is returned
instead of an empty list. -/
theorem claim_model_path_validation (out : AggOut) (insights : List RawInsight)
    (cands : List AggInsight) :
    (∀ c ∈ aggregate_insights out insights, validate_insight c = true) ∧
    (out = .parsed cands → insights ≠ [] →
      (cands.filter validate_insight ≠ [] →
        aggregate_insights out insights = cands.filter validate_insight) ∧
      (cands.filter validate_insight = [] → cands ≠ [] →
        aggregate_insights out insights = fallback_aggregation insights)) := by
  constructor
  · intro c hc
    unfold aggregate_insights at hc
    split at hc
    · simp at hc
    · match out with
      | .fail _ => exact fallback_aggregation_validated insights c hc
      | .nonList => simp at hc
      | .parsed cs =>
        simp only at hc
        split at hc
        · exact fallback_aggregation_validated insights c hc
        · exact (List.mem_filter.mp hc).2
  · rintro rfl hne
    have hie : insights.isEmpty = false := by
      cases insights with
      | nil => exact absurd rfl hne
      | cons a t => rfl
    constructor
    · intro hv
      have hve : (cands.filter validate_insight).isEmpty = false := by
        cases hfe : cands.filter validate_insight with
        | nil => exact absurd hfe hv
        | cons a t => rfl
      simp [aggregate_insights, hie, hve]
    · intro hv hc
      have hce : cands.isEmpty = false := by
        cases cands with
        | nil => exact absurd rfl hc
        | cons a t => rfl
      simp [aggregate_insights, hie, hv, hce]

/-- A candidate record with an out-of-range confidence. -/
def badCand : AggInsight := ⟨some "t", some "d", some "e", some "i", some (.int 9)⟩

/-- A candidate record passing validation. -/
def goodCand : AggInsight := ⟨some "t", some "d", some "e", some "i", some (.int 3)⟩

theorem claim_model_path_validation_witness :
    (∀ c ∈ aggregate_insights (.parsed [goodCand, badCand]) [cexA],
        validate_insight c = true) ∧
    aggregate_insights (.parsed [goodCand, badCand]) [cexA] =
      [goodCand, badCand].filter validate_insight ∧
    aggregate_insights (.parsed [badCand]) [cexA] = fallback_aggregation [cexA] :=
  ⟨(claim_model_path_validation (.parsed [goodCand, badCand]) [cexA]
      [goodCand, badCand]).1,
   ((claim_model_path_validation (.parsed [goodCand, badCand]) [cexA]
      [goodCand, badCand]).2 rfl (by decide)).1 (by decide),
   ((claim_model_path_validation (.parsed [badCand]) [cexA] [badCand]).2 rfl
      (by decide)).2 (by decide) (by decide)⟩

/-! ## Persona generation (`persona_generator.py`) -/

/-- A persona outline: role plus short description. -/
structure POutline where
  role : String
  description : String
deriving DecidableEq

/-- Outcome of the reflection call plus JSON extraction: any failure (service
error, no JSON, bad JSON, missing "personas" list), or the parsed outline
list. -/
inductive ReflOut where
  | fail (msg : String)
  | parsed (personas : List POutline)
deriving DecidableEq

/-- The fixed fallback roles cycled by `_create_fallback_persona_list`. -/
def fallback_roles : List String :=
  ["Product Manager", "Business User", "Technical User", "New Customer",
   "Experienced User"]

/-- The fixed fallback outline descriptions. -/
def fallback_descriptions (context : String) : List String :=
  ["A product manager looking for solutions to improve their team\x27s workflow in "
     ++ context,
   "A business professional who needs to solve problems related to " ++ context
     ++ " without technical knowledge",
   "A technical user with deep understanding of " ++ context
     ++ " who needs advanced solutions",
   "Someone new to " ++ context
     ++ " who is exploring available solutions for the first time",
   "A longtime user with extensive experience in " ++ context
     ++ " looking for improvements"]

/-- `PersonaGenerator._create_fallback_persona_list`: cycle the fixed roles. -/
def create_fallback_persona_list (context : String) (num_personas : Nat) :
    List POutline :=
  (List.range num_personas).map (fun i =>
    ⟨fallback_roles.getD (i % 5) "", (fallback_descriptions context).getD (i % 5) ""⟩)

/-- The padding outline appended when reflection returns too few entries. -/
def general_user_outline (context : String) (k : Nat) : POutline :=
  ⟨"General User " ++ toString k,
   "A typical user interested in " ++ context ++ " with general needs and concerns."⟩

/-- The truncate-then-pad step of `reflect_on_personas` (closed form of the
while loop appending "General User" outlines until the length is reached). -/
def pad_outlines (context : String) (l : List POutline) (n : Nat) : List POutline :=
  l ++ (List.range (n - l.length)).map
    (fun j => general_user_outline context (l.length + j + 1))

/-- `PersonaGenerator.reflect_on_personas`. -/
def reflect_on_personas (out : ReflOut) (context : String) (num_personas : Nat) :
    List POutline :=
  match out with
  | .fail _ => create_fallback_persona_list context num_personas
  | .parsed ps => pad_outlines context (ps.take num_personas) num_personas

/-- Parsed persona JSON: any required field may be missing. -/
structure PersonaData where
  id : Option String
  name : Option String
  age : Option Int
  gender : Option String
  occupation : Option String
  location : Option String
  demographics : Option (List (String × String))
  behaviors : Option (List String)
  goals : Option (List String)
  pain_points : Option (List String)
  motivations : Option (List String)
  challenges : Option (List String)
  personality : Option (List (String × String))
  background : Option String
  description : Option String
deriving DecidableEq

/-- Presence test for one required field name ('field in persona_data'). -/
def PersonaData.hasField (d : PersonaData) (f : String) : Bool :=
  if f = "name" then d.name.isSome
  else if f = "age" then d.age.isSome
  else if f = "gender" then d.gender.isSome
  else if f = "occupation" then d.occupation.isSome
  else if f = "location" then d.location.isSome
  else if f = "demographics" then d.demographics.isSome
  else if f = "behaviors" then d.behaviors.isSome
  else if f = "goals" then d.goals.isSome
  else if f = "pain_points" then d.pain_points.isSome
  else if f = "motivations" then d.motivations.isSome
  else if f = "challenges" then d.challenges.isSome
  else if f = "personality" then d.personality.isSome
  else if f = "background" then d.background.isSome
  else if f = "description" then d.description.isSome
  else false

/-- `missing_fields = [field for field in required_fields if field not in persona_data]`. -/
def missing_fields (d : PersonaData) : List String :=
  required_fields.filter (fun f => !(d.hasField f))

/-- `Persona.from_dict`: build the pydantic model, defaulting only the id. -/
def Persona.from_dict (d : PersonaData) (uuid : String) : Persona :=
  ⟨d.id.getD uuid, d.name.getD "", d.age.getD 0, d.gender.getD "",
   d.occupation.getD "", d.location.getD "", d.demographics.getD [],
   d.behaviors.getD [], d.goals.getD [], d.pain_points.getD [],
   d.motivations.getD [], d.challenges.getD [], d.personality.getD [],
   d.background.getD "", d.description.getD ""⟩

/-- `PersonaGenerator._create_fallback_persona`: the deterministic fallback
persona carrying the outline's role and description. -/
def create_fallback_persona (context : String) (outline : Option POutline)
    (uuid : String) : Persona :=
  let role := match outline with
    | some o => o.role
    | none => "Professional"
  let descr := match outline with
    | some o => o.description
    | none => "A mid-career professional seeking solutions related to " ++ context ++ "."
  { id := uuid,
    name := "Sample " ++ role,
    age := 35,
    gender := "Not specified",
    occupation := role,
    location := "United States",
    demographics := [("income_level", "Middle"), ("education", "Bachelor\x27s degree"),
      ("family_status", "Not specified")],
    behaviors := ["Researches options online", "Price-conscious"],
    goals := ["Solve business problems efficiently", "Save time and money"],
    pain_points := ["Frustrated with current solutions", "Lack of support"],
    motivations := ["Improve productivity", "Reduce costs"],
    challenges := ["Finding the right solution", "Implementation issues"],
    personality := [("analytical", "Makes data-driven decisions"),
      ("pragmatic", "Focuses on practical outcomes")],
    background := "Has been working in the industry for several years and is looking for better solutions.",
    description := descr }

/-- Outcome of one detail-expansion call plus JSON extraction: any failure
(service error, no JSON, bad JSON — also an execution failure of the future,
which produces the same fallback), or the parsed persona data. -/
inductive ExpandOut where
  | fail (msg : String)
  | parsed (d : PersonaData)
deriving DecidableEq

/-- `PersonaGenerator.generate_persona_from_outline`: validated persona, or
the deterministic fallback on any failure or missing field. -/
def generate_persona_from_outline (out : ExpandOut) (context : String)
    (outline : POutline) (uuid : String) : Persona :=
  match out with
  | .fail _ => create_fallback_persona context (some outline) uuid
  | .parsed d =>
    if missing_fields d ≠ [] then create_fallback_persona context (some outline) uuid
    else Persona.from_dict d uuid

/-- Oracle outcomes for one run of `generate_personas`: the reflection call
and one expansion call per outline index. -/
structure GenEnv where
  reflect_out : ReflOut
  expand_out : Nat → ExpandOut

/-- The expansion of the outline at index `i`. -/
def expand_at (env : GenEnv) (context : String) (outlines : List POutline)
    (i : Nat) : Persona :=
  generate_persona_from_outline (env.expand_out i) context (outlines.getD i ⟨"", ""⟩)
    ("persona-" ++ toString i)

/-- `PersonaGenerator.generate_personas`: reflect once, then expand every
outline in a pool of `min(num_personas, 5)` workers, collecting results in
completion order `order` (a permutation of the outline indices). With
`num_personas = 0` the `ThreadPoolExecutor` constructor raises ValueError. -/
def generate_personas (env : GenEnv) (context : String) (num_personas : Nat)
    (order : List Nat) : Except String (List Persona) :=
  let outlines := reflect_on_personas env.reflect_out context num_personas
  if num_personas = 0 then .error "max_workers must be greater than 0"
  else .ok (order.map (expand_at env context outlines))

/-! ### Lemmas about persona generation -/

theorem reflect_on_personas_length (out : ReflOut) (context : String) (n : Nat) :
    (reflect_on_personas out context n).length = n := by
  cases out with
  | fail m => simp [reflect_on_personas, create_fallback_persona_list]
  | parsed ps =>
    simp only [reflect_on_personas, pad_outlines, List.length_append,
      List.length_map, List.length_range, List.length_take]
    omega

theorem personaFieldsComplete_all (p : Persona) : personaFieldsComplete p := by
  intro f hf
  fin_cases hf <;> simp [Persona.to_dict]

theorem generate_personas_ok (env : GenEnv) (context : String) (N : Nat)
    (order : List Nat) (h : N ≠ 0) :
    generate_personas env context N order =
      .ok (order.map (expand_at env context
        (reflect_on_personas env.reflect_out context N))) := by
  simp [generate_personas, h]

theorem generate_personas_raises (env : GenEnv) (context : String)
    (order : List Nat) :
    generate_personas env context 0 order =
      .error "max_workers must be greater than 0" := by
  simp [generate_personas]

/-- C2: for `N ≥ 1` and any completion order of the parallel expansions,
`generate_personas` returns (without raising) exactly `N` personas, each with
every required attribute populated, and the returned list is the completion
order's rearrangement of the per-outline expansions (a permutation of the
request-order results). -/
theorem claim_generate_personas_count (env : GenEnv) (context : String)
    (N : Nat) (order : List Nat) (hN : 1 ≤ N)
    (hord : order.Perm (List.range N)) :
    ∃ ps, generate_personas env context N order = .ok ps ∧
      ps.length = N ∧
      (∀ p ∈ ps, personaFieldsComplete p) ∧
      ps.Perm ((List.range N).map
        (expand_at env context (reflect_on_personas env.reflect_out context N))) := by
  refine ⟨order.map (expand_at env context
    (reflect_on_personas env.reflect_out context N)), ?_, ?_, ?_, ?_⟩
  · exact generate_personas_ok env context N order (by omega)
  · rw [List.length_map, hord.length_eq, List.length_range]
  · intro p hp
    exact personaFieldsComplete_all p
  · exact hord.map _

/-- An all-failing persona-generation oracle (used by witnesses and
scenario 3). -/
def allFailGenEnv : GenEnv := ⟨.fail "ServiceError", fun _ => .fail "ServiceError"⟩

theorem claim_generate_personas_count_witness :
    ∃ ps, generate_personas allFailGenEnv "dog walking app" 2 [1, 0] = .ok ps ∧
      ps.length = 2 ∧
      (∀ p ∈ ps, personaFieldsComplete p) ∧
      ps.Perm ((List.range 2).map
        (expand_at allFailGenEnv "dog walking app"
          (reflect_on_personas allFailGenEnv.reflect_out "dog walking app" 2))) :=
  claim_generate_personas_count allFailGenEnv "dog walking app" 2 [1, 0]
    (by decide) (by decide)

/-! ## Simulation lifecycle (`simulation_manager.py`) -/

/-- Ghost program counter for one background task (persona generation or the
run task): not yet spawned, scheduled synchronously, thread running, thread
finished. -/
inductive TaskPhase where
  | notStarted
  | scheduled
  | launched
  | done
deriving DecidableEq

/-- One `Simulation` object plus the ghost phases of its two background
tasks. -/
structure SimState where
  context : String
  num_personas : Nat
  max_turns : Nat
  status : String
  personas : List Persona
  conversations : List (String × Conversation)
  aggregated_insights : List AggInsight
  start_time : Option Nat
  end_time : Option Nat
  error : Option String
  genPhase : TaskPhase
  runPhase : TaskPhase
deriving DecidableEq

/-- The simulation registry: id to simulation. -/
def Sims : Type := String → Option SimState

/-- Store or replace one simulation. -/
def updateSim (m : Sims) (id : String) (s : SimState) : Sims :=
  fun k => if k = id then some s else m k

theorem updateSim_self (m : Sims) (id : String) (s : SimState) :
    updateSim m id s id = some s := by
  simp [updateSim]

theorem updateSim_other (m : Sims) (id : String) (s : SimState) (j : String)
    (h : j ≠ id) : updateSim m id s j = m j := by
  simp [updateSim, h]

/-- A freshly constructed `Simulation`. -/
def newSim (context : String) (num_personas max_turns : Nat) : SimState :=
  { context := context, num_personas := num_personas, max_turns := max_turns,
    status := "created", personas := [], conversations := [],
    aggregated_insights := [], start_time := none, end_time := none,
    error := none, genPhase := .scheduled, runPhase := .notStarted }

/-- `SimulationManager.create_simulation`: allocate and store the simulation
(the synchronous status write and thread launch of
`_generate_personas_async` are the separate `scheduleGen` step). -/
def create_simulation (m : Sims) (id context : String)
    (num_personas max_turns : Nat) : Sims :=
  updateSim m id (newSim context num_personas max_turns)

/-- `SimulationManager.start_simulation`. -/
def start_simulation (m : Sims) (id : String) (t : Nat) : Bool × Sims :=
  match m id with
  | none => (false, m)
  | some s =>
    if s.status = "ready" then
      (true, updateSim m id
        { s with
          status := "running", start_time := some t, runPhase := .launched })
    else (false, m)

/-- `SimulationManager.stop_simulation`. -/
def stop_simulation (m : Sims) (id : String) (t : Nat) : Bool × Sims :=
  match m id with
  | none => (false, m)
  | some s =>
    if s.status = "running" then
      (true, updateSim m id { s with status := "completed", end_time := some t })
    else (false, m)

/-- Oracle outcomes for every simulation's external calls, by simulation id
(and persona id for the per-conversation oracles). -/
structure World where
  gen : String → GenEnv
  iv : String → String → InterviewEnv
  agg : String → AggOut

/-- `simulation.conversations.get(persona_id)`. -/
def lookup_conversation (convs : List (String × Conversation)) (pid : String) :
    Option Conversation :=
  match convs.find? (fun pc => pc.1 == pid) with
  | none => none
  | some pc => some pc.2

/-- The collection loop of `_aggregate_insights`: tag every conversation
insight with its persona and conversation. -/
def collect_insights (personas : List Persona)
    (convs : List (String × Conversation)) : List RawInsight :=
  personas.flatMap (fun p =>
    match lookup_conversation convs p.id with
    | none => []
    | some c => c.insights.map (fun i => ⟨i, p.id, p.name, c.id⟩))

/-- One conversation thread: start the conversation, run the turn loop for
the turns observed while the simulation stayed running, then summarize. -/
def drive_conversation (env : InterviewEnv) (context : String) (p : Persona)
    (turns : Nat) : Conversation :=
  run_conversation env turns
    (start_conversation env.initial_out context p ("conv-" ++ p.id) 0)

/-- The completion of `run_simulation_task`: all conversation threads have
joined after `ts` turns each, insights are collected and aggregated (only
when non-empty), and the simulation completes. -/
def finish_run (w : World) (id : String) (s : SimState) (ts : List Nat)
    (tEnd : Nat) : SimState :=
  let convs := List.zipWith
    (fun (p : Persona) (t : Nat) => (p.id, drive_conversation (w.iv id p.id) s.context p t))
    s.personas ts
  let all_insights := collect_insights s.personas convs
  let agg := if all_insights.isEmpty then s.aggregated_insights
             else aggregate_insights (w.agg id) all_insights
  { s with
    conversations := convs, aggregated_insights := agg,
    status := "completed", end_time := some tEnd, runPhase := .done }

/-- The atomic state changes of the orchestrator and its background tasks.
`create` allocates a fresh simulation; `scheduleGen` is the synchronous
front half of `_generate_personas_async`; `genOk`/`genFail` are the two
exits of `generate_personas_task` (the completion order of the expansion
pool is any permutation of the outline indices); `start`/`stop` are the API
operations when they succeed; `runDone` is the completion of
`run_simulation_task`, each conversation thread having observed at most
`max_turns` running turns. -/
inductive Step (w : World) : Sims → Sims → Prop where
  | create (m : Sims) (id context : String) (N mt : Nat) :
      m id = none → Step w m (create_simulation m id context N mt)
  | scheduleGen (m : Sims) (id : String) (s : SimState) :
      m id = some s → s.genPhase = .scheduled →
      Step w m (updateSim m id
        { s with status := "generating_personas", genPhase := .launched })
  | genOk (m : Sims) (id : String) (s : SimState) (order : List Nat)
      (ps : List Persona) :
      m id = some s → s.genPhase = .launched →
      order.Perm (List.range s.num_personas) →
      generate_personas (w.gen id) s.context s.num_personas order = .ok ps →
      Step w m (updateSim m id
        { s with status := "ready", personas := ps, genPhase := .done })
  | genFail (m : Sims) (id : String) (s : SimState) (order : List Nat) (e : String) :
      m id = some s → s.genPhase = .launched →
      order.Perm (List.range s.num_personas) →
      generate_personas (w.gen id) s.context s.num_personas order = .error e →
      Step w m (updateSim m id
        { s with status := "error", error := some e, genPhase := .done })
  | start (m : Sims) (id : String) (t : Nat) (s : SimState) :
      m id = some s → s.status = "ready" →
      Step w m (updateSim m id
        { s with
          status := "running", start_time := some t, runPhase := .launched })
  | stop (m : Sims) (id : String) (t : Nat) (s : SimState) :
      m id = some s → s.status = "running" →
      Step w m (updateSim m id
        { s with status := "completed", end_time := some t })
  | runDone (m : Sims) (id : String) (s : SimState) (ts : List Nat) (tEnd : Nat) :
      m id = some s → s.runPhase = .launched →
      ts.length = s.personas.length → (∀ t ∈ ts, t ≤ s.max_turns) →
      Step w m (updateSim m id (finish_run w id s ts tEnd))

/-- The empty registry at process start. -/
def initSims : Sims := fun _ => none

/-- Registry states reachable from process start under oracle `w`. -/
def ReachableW (w : World) (m : Sims) : Prop :=
  Relation.ReflTransGen (Step w) initSims m

/-- Per-simulation inductive invariant tying the ghost task phases to the
status field, plus the fact that only a zero-persona simulation can error. -/
def SimInv (s : SimState) : Prop :=
  (s.genPhase = .scheduled → s.status = "created") ∧
  (s.genPhase = .launched → s.status = "generating_personas") ∧
  (s.runPhase = .launched → s.status = "running" ∨ s.status = "completed") ∧
  (s.runPhase = .done → s.status = "completed") ∧
  (s.status = "error" → s.num_personas = 0)

/-- The registry invariant. -/
def Inv (m : Sims) : Prop := ∀ id s, m id = some s → SimInv s

theorem generate_personas_error_zero (env : GenEnv) (context : String) (N : Nat)
    (order : List Nat) (e : String)
    (h : generate_personas env context N order = .error e) : N = 0 := by
  by_contra hN
  rw [generate_personas_ok env context N order hN] at h
  exact Except.noConfusion h

theorem start_simulation_true (m m' : Sims) (id : String) (t : Nat)
    (h : start_simulation m id t = (true, m')) :
    ∃ s, m id = some s ∧ s.status = "ready" ∧
      m' = updateSim m id
        { s with
          status := "running", start_time := some t, runPhase := .launched } := by
  unfold start_simulation at h
  cases hm : m id with
  | none => rw [hm] at h; simp at h
  | some s =>
    rw [hm] at h
    dsimp only at h
    split at h
    · rename_i hst
      refine ⟨s, rfl, hst, ?_⟩
      have := congrArg Prod.snd h
      exact this.symm
    · simp at h

theorem stop_simulation_true (m m' : Sims) (id : String) (t : Nat)
    (h : stop_simulation m id t = (true, m')) :
    ∃ s, m id = some s ∧ s.status = "running" ∧
      m' = updateSim m id { s with status := "completed", end_time := some t } := by
  unfold stop_simulation at h
  cases hm : m id with
  | none => rw [hm] at h; simp at h
  | some s =>
    rw [hm] at h
    dsimp only at h
    split at h
    · rename_i hst
      refine ⟨s, rfl, hst, ?_⟩
      have := congrArg Prod.snd h
      exact this.symm
    · simp at h

theorem start_simulation_of_ready (m : Sims) (id : String) (t : Nat) (s : SimState)
    (hm : m id = some s) (hs : s.status = "ready") :
    start_simulation m id t = (true, updateSim m id
      { s with status := "running", start_time := some t, runPhase := .launched }) := by
  unfold start_simulation
  rw [hm]
  dsimp only
  rw [if_pos hs]

theorem stop_simulation_of_running (m : Sims) (id : String) (t : Nat) (s : SimState)
    (hm : m id = some s) (hs : s.status = "running") :
    stop_simulation m id t = (true, updateSim m id
      { s with status := "completed", end_time := some t }) := by
  unfold stop_simulation
  rw [hm]
  dsimp only
  rw [if_pos hs]

theorem inv_update (m : Sims) (id : String) (s : SimState) (hInv : Inv m)
    (hs : SimInv s) : Inv (updateSim m id s) := by
  intro j s' h
  unfold updateSim at h
  split at h
  · cases h
    exact hs
  · exact hInv j s' h

/-- A successful `start_simulation` call is a system step. -/
theorem step_of_start_true (w : World) (m m' : Sims) (id : String) (t : Nat)
    (h : start_simulation m id t = (true, m')) : Step w m m' := by
  obtain ⟨s, hm, hst, rfl⟩ := start_simulation_true m m' id t h
  exact Step.start m id t s hm hst

/-- A successful `stop_simulation` call is a system step. -/
theorem step_of_stop_true (w : World) (m m' : Sims) (id : String) (t : Nat)
    (h : stop_simulation m id t = (true, m')) : Step w m m' := by
  obtain ⟨s, hm, hst, rfl⟩ := stop_simulation_true m m' id t h
  exact Step.stop m id t s hm hst

theorem inv_step (w : World) (m m' : Sims) (hInv : Inv m) (hS : Step w m m') :
    Inv m' := by
  cases hS with
  | create id context N mt hnone =>
    unfold create_simulation
    refine inv_update m id _ hInv ?_
    exact ⟨fun _ => rfl,
           fun h => by simp [newSim] at h,
           fun h => by simp [newSim] at h,
           fun h => by simp [newSim] at h,
           fun h => by simp [newSim] at h⟩
  | scheduleGen id s hm hg =>
    have hs := hInv id s hm
    refine inv_update m id _ hInv ?_
    refine ⟨fun h => by simp at h, fun _ => rfl, ?_, ?_, fun h => by simp at h⟩
    · intro h
      simp only at h
      have h1 := hs.2.2.1 h
      have h2 := hs.1 hg
      rcases h1 with h1 | h1 <;> (rw [h2] at h1; exact absurd h1 (by decide))
    · intro h
      simp only at h
      have h1 := hs.2.2.2.1 h
      have h2 := hs.1 hg
      rw [h2] at h1
      exact absurd h1 (by decide)
  | genOk id s order ps hm hg hord hgen =>
    have hs := hInv id s hm
    refine inv_update m id _ hInv ?_
    refine ⟨fun h => by simp at h, fun h => by simp at h, ?_, ?_,
      fun h => by simp at h⟩
    · intro h
      simp only at h
      have h1 := hs.2.2.1 h
      have h2 := hs.2.1 hg
      rcases h1 with h1 | h1 <;> (rw [h2] at h1; exact absurd h1 (by decide))
    · intro h
      simp only at h
      have h1 := hs.2.2.2.1 h
      have h2 := hs.2.1 hg
      rw [h2] at h1
      exact absurd h1 (by decide)
  | genFail id s order e hm hg hord hgen =>
    have hs := hInv id s hm
    refine inv_update m id _ hInv ?_
    refine ⟨fun h => by simp at h, fun h => by simp at h, ?_, ?_, ?_⟩
    · intro h
      simp only at h
      have h1 := hs.2.2.1 h
      have h2 := hs.2.1 hg
      rcases h1 with h1 | h1 <;> (rw [h2] at h1; exact absurd h1 (by decide))
    · intro h
      simp only at h
      have h1 := hs.2.2.2.1 h
      have h2 := hs.2.1 hg
      rw [h2] at h1
      exact absurd h1 (by decide)
    · intro _
      exact generate_personas_error_zero _ _ _ _ _ hgen
  | start id t s hm hst =>
    have hs := hInv id s hm
    refine inv_update m id _ hInv ?_
    refine ⟨?_, ?_, fun _ => Or.inl rfl, fun h => by simp at h,
      fun h => by simp at h⟩
    · intro h
      simp only at h
      have h1 := hs.1 h
      rw [hst] at h1
      exact absurd h1 (by decide)
    · intro h
      simp only at h
      have h1 := hs.2.1 h
      rw [hst] at h1
      exact absurd h1 (by decide)
  | stop id t s hm hst =>
    have hs := hInv id s hm
    refine inv_update m id _ hInv ?_
    refine ⟨?_, ?_, fun _ => Or.inr rfl, fun _ => rfl, fun h => by simp at h⟩
    · intro h
      simp only at h
      have h1 := hs.1 h
      rw [hst] at h1
      exact absurd h1 (by decide)
    · intro h
      simp only at h
      have h1 := hs.2.1 h
      rw [hst] at h1
      exact absurd h1 (by decide)
  | runDone id s ts tEnd hm hr hlen hts =>
    have hs := hInv id s hm
    refine inv_update m id _ hInv ?_
    refine ⟨?_, ?_, fun h => by simp [finish_run] at h, fun _ => rfl,
      fun h => by simp [finish_run] at h⟩
    · intro h
      simp only [finish_run] at h
      have h1 := hs.1 h
      rcases hs.2.2.1 hr with h2 | h2 <;> (rw [h1] at h2; exact absurd h2 (by decide))
    · intro h
      simp only [finish_run] at h
      have h1 := hs.2.1 h
      rcases hs.2.2.1 hr with h2 | h2 <;> (rw [h1] at h2; exact absurd h2 (by decide))

theorem inv_rtg (w : World) {m0 m1 : Sims}
    (h : Relation.ReflTransGen (Step w) m0 m1) (hInv : Inv m0) : Inv m1 := by
  induction h with
  | refl => exact hInv
  | tail hab hbc ih => exact inv_step w _ _ ih hbc

theorem reachable_inv (w : World) (m : Sims) (h : ReachableW w m) : Inv m :=
  inv_rtg w h (fun _ _ hm => Option.noConfusion hm)

/-- Master case analysis: one step either leaves a simulation untouched or
moves its status along exactly one forward edge (an error only ever arising
from the generation task of a zero-persona simulation). -/
theorem step_sim_change (w : World) (m m' : Sims) (hInv : Inv m)
    (hS : Step w m m') (id : String) (s : SimState) (hm : m id = some s) :
    ∃ s2, m' id = some s2 ∧
      (s2 = s ∨
       (s.status = "created" ∧ s2.status = "generating_personas") ∨
       (s.status = "generating_personas" ∧ s2.status = "ready") ∨
       (s.status = "generating_personas" ∧ s2.status = "error" ∧
          s.num_personas = 0) ∨
       (s.status = "ready" ∧ s2.status = "running") ∨
       (s.status = "running" ∧ s2.status = "completed") ∨
       (s.status = "completed" ∧ s2.status = "completed")) := by
  cases hS with
  | create id0 context N mt hnone =>
    by_cases hid : id = id0
    · subst hid
      rw [hm] at hnone
      exact Option.noConfusion hnone
    · refine ⟨s, ?_, Or.inl rfl⟩
      unfold create_simulation
      rw [updateSim_other _ _ _ _ hid]
      exact hm
  | scheduleGen id0 s0 hm0 hg =>
    by_cases hid : id = id0
    · subst hid
      rw [hm] at hm0
      have hss : s = s0 := Option.some.inj hm0
      subst hss
      refine ⟨_, updateSim_self _ _ _, ?_⟩
      exact Or.inr (Or.inl ⟨(hInv id s hm).1 hg, rfl⟩)
    · refine ⟨s, ?_, Or.inl rfl⟩
      rw [updateSim_other _ _ _ _ hid]
      exact hm
  | genOk id0 s0 order ps hm0 hg hord hgen =>
    by_cases hid : id = id0
    · subst hid
      rw [hm] at hm0
      have hss : s = s0 := Option.some.inj hm0
      subst hss
      refine ⟨_, updateSim_self _ _ _, ?_⟩
      exact Or.inr (Or.inr (Or.inl ⟨(hInv id s hm).2.1 hg, rfl⟩))
    · refine ⟨s, ?_, Or.inl rfl⟩
      rw [updateSim_other _ _ _ _ hid]
      exact hm
  | genFail id0 s0 order e hm0 hg hord hgen =>
    by_cases hid : id = id0
    · subst hid
      rw [hm] at hm0
      have hss : s = s0 := Option.some.inj hm0
      subst hss
      refine ⟨_, updateSim_self _ _ _, ?_⟩
      exact Or.inr (Or.inr (Or.inr (Or.inl ⟨(hInv id s hm).2.1 hg, rfl,
        generate_personas_error_zero _ _ _ _ _ hgen⟩)))
    · refine ⟨s, ?_, Or.inl rfl⟩
      rw [updateSim_other _ _ _ _ hid]
      exact hm
  | start id0 t s0 hm0 hst =>
    by_cases hid : id = id0
    · subst hid
      rw [hm] at hm0
      have hss : s = s0 := Option.some.inj hm0
      subst hss
      refine ⟨_, updateSim_self _ _ _, ?_⟩
      exact Or.inr (Or.inr (Or.inr (Or.inr (Or.inl ⟨hst, rfl⟩))))
    · refine ⟨s, ?_, Or.inl rfl⟩
      rw [updateSim_other _ _ _ _ hid]
      exact hm
  | stop id0 t s0 hm0 hst =>
    by_cases hid : id = id0
    · subst hid
      rw [hm] at hm0
      have hss : s = s0 := Option.some.inj hm0
      subst hss
      refine ⟨_, updateSim_self _ _ _, ?_⟩
      exact Or.inr (Or.inr (Or.inr (Or.inr (Or.inr (Or.inl ⟨hst, rfl⟩)))))
    · refine ⟨s, ?_, Or.inl rfl⟩
      rw [updateSim_other _ _ _ _ hid]
      exact hm
  | runDone id0 s0 ts tEnd hm0 hr hlen hts =>
    by_cases hid : id = id0
    · subst hid
      rw [hm] at hm0
      have hss : s = s0 := Option.some.inj hm0
      subst hss
      refine ⟨_, updateSim_self _ _ _, ?_⟩
      rcases (hInv id s hm).2.2.1 hr with h2 | h2
      · exact Or.inr (Or.inr (Or.inr (Or.inr (Or.inr (Or.inl ⟨h2, rfl⟩)))))
      · exact Or.inr (Or.inr (Or.inr (Or.inr (Or.inr (Or.inr ⟨h2, rfl⟩)))))
    · refine ⟨s, ?_, Or.inl rfl⟩
      rw [updateSim_other _ _ _ _ hid]
      exact hm

/-- An "error" status is permanent along any run of the system. -/
theorem error_frozen (w : World) {m0 m1 : Sims}
    (h : Relation.ReflTransGen (Step w) m0 m1) (hInv : Inv m0) (id : String)
    (s : SimState) (hm : m0 id = some s) (he : s.status = "error") :
    ∃ s2, m1 id = some s2 ∧ s2.status = "error" := by
  induction h with
  | refl => exact ⟨s, hm, he⟩
  | tail hab hbc ih =>
    obtain ⟨s1, hb, he1⟩ := ih
    have hInvb := inv_rtg w hab hInv
    obtain ⟨s2, hc, hcase⟩ := step_sim_change w _ _ hInvb hbc id s1 hb
    refine ⟨s2, hc, ?_⟩
    rcases hcase with rfl | ⟨h1, _⟩ | ⟨h1, _⟩ | ⟨h1, _, _⟩ | ⟨h1, _⟩ | ⟨h1, _⟩ | ⟨h1, _⟩
    · exact he1
    all_goals (rw [he1] at h1; exact absurd h1 (by decide))

/-- C3: `start_simulation` succeeds exactly when the simulation exists in
status "ready" (then status becomes "running" with start_time recorded and
no other simulation is touched; on failure nothing changes at all);
`stop_simulation` succeeds exactly when the simulation exists in status
"running" (then status becomes "completed" with end_time recorded; on
failure nothing changes). -/
theorem claim_start_stop_preconditions (m : Sims) (id : String) (t : Nat) :
    ((((start_simulation m id t).1 = true) ↔
        ∃ s, m id = some s ∧ s.status = "ready") ∧
     (∀ s, m id = some s → s.status = "ready" →
        (start_simulation m id t).2 id = some
          { s with
            status := "running", start_time := some t, runPhase := .launched } ∧
        ∀ j, j ≠ id → (start_simulation m id t).2 j = m j) ∧
     ((start_simulation m id t).1 = false → (start_simulation m id t).2 = m)) ∧
    ((((stop_simulation m id t).1 = true) ↔
        ∃ s, m id = some s ∧ s.status = "running") ∧
     (∀ s, m id = some s → s.status = "running" →
        (stop_simulation m id t).2 id = some
          { s with status := "completed", end_time := some t } ∧
        ∀ j, j ≠ id → (stop_simulation m id t).2 j = m j) ∧
     ((stop_simulation m id t).1 = false → (stop_simulation m id t).2 = m)) := by
  constructor
  · cases hm : m id with
    | none =>
      have he : start_simulation m id t = (false, m) := by
        unfold start_simulation
        rw [hm]
      refine ⟨?_, ?_, ?_⟩
      · rw [he]
        constructor
        · intro h
          exact Bool.noConfusion h
        · rintro ⟨s, hs, _⟩
          exact Option.noConfusion hs
      · intro s hs _
        exact Option.noConfusion hs
      · intro _
        rw [he]
    | some s =>
      by_cases hst : s.status = "ready"
      · have he := start_simulation_of_ready m id t s hm hst
        refine ⟨?_, ?_, ?_⟩
        · rw [he]
          exact ⟨fun _ => ⟨s, rfl, hst⟩, fun _ => rfl⟩
        · intro s2 hs2 _
          have hss : s = s2 := Option.some.inj hs2
          subst hss
          rw [he]
          exact ⟨updateSim_self _ _ _, fun j hj => updateSim_other _ _ _ _ hj⟩
        · intro h
          rw [he] at h
          exact Bool.noConfusion h
      · have he : start_simulation m id t = (false, m) := by
          unfold start_simulation
          rw [hm]
          dsimp only
          rw [if_neg hst]
        refine ⟨?_, ?_, ?_⟩
        · rw [he]
          constructor
          · intro h
            exact Bool.noConfusion h
          · rintro ⟨s2, hs2, hst2⟩
            have hss : s = s2 := Option.some.inj hs2
            subst hss
            exact absurd hst2 hst
        · intro s2 hs2 hst2
          have hss : s = s2 := Option.some.inj hs2
          subst hss
          exact absurd hst2 hst
        · intro _
          rw [he]
  · cases hm : m id with
    | none =>
      have he : stop_simulation m id t = (false, m) := by
        unfold stop_simulation
        rw [hm]
      refine ⟨?_, ?_, ?_⟩
      · rw [he]
        constructor
        · intro h
          exact Bool.noConfusion h
        · rintro ⟨s, hs, _⟩
          exact Option.noConfusion hs
      · intro s hs _
        exact Option.noConfusion hs
      · intro _
        rw [he]
    | some s =>
      by_cases hst : s.status = "running"
      · have he := stop_simulation_of_running m id t s hm hst
        refine ⟨?_, ?_, ?_⟩
        · rw [he]
          exact ⟨fun _ => ⟨s, rfl, hst⟩, fun _ => rfl⟩
        · intro s2 hs2 _
          have hss : s = s2 := Option.some.inj hs2
          subst hss
          rw [he]
          exact ⟨updateSim_self _ _ _, fun j hj => updateSim_other _ _ _ _ hj⟩
        · intro h
          rw [he] at h
          exact Bool.noConfusion h
      · have he : stop_simulation m id t = (false, m) := by
          unfold stop_simulation
          rw [hm]
          dsimp only
          rw [if_neg hst]
        refine ⟨?_, ?_, ?_⟩
        · rw [he]
          constructor
          · intro h
            exact Bool.noConfusion h
          · rintro ⟨s2, hs2, hst2⟩
            have hss : s = s2 := Option.some.inj hs2
            subst hss
            exact absurd hst2 hst
        · intro s2 hs2 hst2
          have hss : s = s2 := Option.some.inj hs2
          subst hss
          exact absurd hst2 hst
        · intro _
          rw [he]

/-- A registry holding one simulation in status "ready". -/
def readyState : SimState :=
  { newSim "ctx" 2 4 with status := "ready", genPhase := .done }

/-- Example registry used by witnesses. -/
def readySims : Sims := fun k => if k = "sim1" then some readyState else none

theorem claim_start_stop_preconditions_witness :
    (start_simulation readySims "sim1" 7).1 = true ∧
    (start_simulation readySims "sim1" 7).2 "sim1" = some
      { readyState with
        status := "running", start_time := some 7, runPhase := .launched } ∧
    (stop_simulation readySims "sim1" 7).2 = readySims :=
  ⟨(claim_start_stop_preconditions readySims "sim1" 7).1.1.mpr
     ⟨readyState, by decide, rfl⟩,
   ((claim_start_stop_preconditions readySims "sim1" 7).1.2.1 readyState
     (by decide) rfl).1,
   (claim_start_stop_preconditions readySims "sim1" 7).2.2.2 (by decide)⟩

/-- The forward edges of the status machine stated in the specification. -/
def StatusAdvance (a b : String) : Prop :=
  b = a ∨
  (a = "created" ∧ b = "generating_personas") ∨
  (a = "generating_personas" ∧ (b = "ready" ∨ b = "error")) ∨
  (a = "ready" ∧ b = "running") ∨
  (a = "running" ∧ (b = "completed" ∨ b = "error"))

/-- C4: from any reachable registry, every step moves every simulation's
status only forward along
created → generating_personas → ready → running → (completed | error),
and a simulation whose status is "completed" or "error" keeps that status
forever. -/
theorem claim_status_monotonic (w : World) (m m' : Sims) (hR : ReachableW w m)
    (hS : Step w m m') (id : String) (s s2 : SimState)
    (hm : m id = some s) (hm2 : m' id = some s2) :
    StatusAdvance s.status s2.status ∧
    (s.status = "completed" → s2.status = "completed") ∧
    (s.status = "error" → s2.status = "error") := by
  have hInv := reachable_inv w m hR
  obtain ⟨s3, hm3, hcase⟩ := step_sim_change w m m' hInv hS id s hm
  rw [hm2] at hm3
  have hss : s3 = s2 := Option.some.inj hm3.symm
  subst hss
  rcases hcase with rfl | ⟨h1, h2⟩ | ⟨h1, h2⟩ | ⟨h1, h2, _⟩ | ⟨h1, h2⟩ | ⟨h1, h2⟩ | ⟨h1, h2⟩
  · exact ⟨Or.inl rfl, fun h => h, fun h => h⟩
  · exact ⟨Or.inr (Or.inl ⟨h1, h2⟩),
      fun h => by rw [h] at h1; exact absurd h1 (by decide),
      fun h => by rw [h] at h1; exact absurd h1 (by decide)⟩
  · exact ⟨Or.inr (Or.inr (Or.inl ⟨h1, Or.inl h2⟩)),
      fun h => by rw [h] at h1; exact absurd h1 (by decide),
      fun h => by rw [h] at h1; exact absurd h1 (by decide)⟩
  · exact ⟨Or.inr (Or.inr (Or.inl ⟨h1, Or.inr h2⟩)),
      fun h => by rw [h] at h1; exact absurd h1 (by decide),
      fun h => by rw [h] at h1; exact absurd h1 (by decide)⟩
  · exact ⟨Or.inr (Or.inr (Or.inr (Or.inl ⟨h1, h2⟩))),
      fun h => by rw [h] at h1; exact absurd h1 (by decide),
      fun h => by rw [h] at h1; exact absurd h1 (by decide)⟩
  · exact ⟨Or.inr (Or.inr (Or.inr (Or.inr ⟨h1, Or.inl h2⟩))),
      fun h => by rw [h] at h1; exact absurd h1 (by decide),
      fun h => by rw [h] at h1; exact absurd h1 (by decide)⟩
  · exact ⟨Or.inl (h2.trans h1.symm),
      fun _ => h2,
      fun h => by rw [h] at h1; exact absurd h1 (by decide)⟩

/-- The all-failing world: every external call raises ServiceError. -/
def allFailWorld : World :=
  ⟨fun _ => allFailGenEnv, fun _ _ => allFailInterviewEnv, fun _ => .fail "ServiceError"⟩

theorem claim_status_monotonic_witness :
    StatusAdvance (newSim "ctx" 2 4).status "generating_personas" ∧
    ((newSim "ctx" 2 4).status = "completed" →
      ("generating_personas" : String) = "completed") ∧
    ((newSim "ctx" 2 4).status = "error" →
      ("generating_personas" : String) = "error") :=
  claim_status_monotonic allFailWorld
    (create_simulation initSims "sim1" "ctx" 2 4)
    (updateSim (create_simulation initSims "sim1" "ctx" 2 4) "sim1"
      { newSim "ctx" 2 4 with
        status := "generating_personas", genPhase := .launched })
    (Relation.ReflTransGen.single (Step.create initSims "sim1" "ctx" 2 4 rfl))
    (Step.scheduleGen _ "sim1" (newSim "ctx" 2 4) (updateSim_self _ _ _) rfl)
    "sim1" (newSim "ctx" 2 4) _ (updateSim_self _ _ _) (updateSim_self _ _ _)

/-! ### The all-ServiceError scenario -/

theorem generate_insights_allfail_fst (c : Conversation) (n : Nat) :
    (generate_insights (allFailInterviewEnv.insights_out n) c).1 = [] := by
  unfold generate_insights
  split <;> rfl

theorem run_turn_insights_allfail (c : Conversation) (ts : Nat)
    (h : c.insights = []) :
    (run_turn allFailInterviewEnv c ts).insights = [] := by
  simp only [run_turn]
  split
  · exact generate_insights_allfail_fst _ _
  · rw [append_turn_message_insights]
    exact h

theorem run_turns_insights_allfail (k : Nat) : ∀ c : Conversation,
    c.insights = [] → (run_turns allFailInterviewEnv k c).insights = [] := by
  induction k with
  | zero => intro c h; exact h
  | succ n ih => intro c h; exact ih _ (run_turn_insights_allfail _ _ h)

theorem drive_conversation_insights_allfail (context : String) (p : Persona)
    (turns : Nat) :
    (drive_conversation allFailInterviewEnv context p turns).insights = [] := by
  unfold drive_conversation run_conversation
  exact run_turns_insights_allfail turns _ rfl

theorem drive_conversation_summary_some (env : InterviewEnv) (context : String)
    (p : Persona) (turns : Nat) :
    (drive_conversation env context p turns).summary.isSome = true := rfl

theorem run_turns_content_allfail (P : String → Prop)
    (hP1 : P persona_placeholder) (hP2 : P interviewer_placeholder) :
    ∀ (k : Nat) (c : Conversation), (∀ msg ∈ c.messages, P msg.content) →
      ∀ msg ∈ (run_turns allFailInterviewEnv k c).messages, P msg.content := by
  intro k
  induction k with
  | zero => intro c h; exact h
  | succ n ih =>
    intro c h
    refine ih _ ?_
    intro msg hmsg
    rw [run_turn_messages] at hmsg
    unfold append_turn_message Conversation.add_message at hmsg
    split at hmsg <;>
      (rcases List.mem_append.mp hmsg with h1 | h1
       · exact h msg h1
       · rw [List.mem_singleton] at h1
         subst h1
         first
           | exact hP1
           | exact hP2)

theorem drive_conversation_content_allfail (context : String) (p : Persona)
    (turns : Nat) :
    ∀ msg ∈ (drive_conversation allFailInterviewEnv context p turns).messages,
      msg.content = fallback_opening context p ∨
      msg.content = persona_placeholder ∨
      msg.content = interviewer_placeholder := by
  intro msg hmsg
  unfold drive_conversation run_conversation at hmsg
  refine run_turns_content_allfail
    (fun x => x = fallback_opening context p ∨ x = persona_placeholder ∨
      x = interviewer_placeholder)
    (Or.inr (Or.inl rfl)) (Or.inr (Or.inr rfl)) turns _ ?_ msg hmsg
  intro m2 hm2
  unfold start_conversation Conversation.add_message at hm2
  simp only [List.nil_append, List.mem_singleton] at hm2
  subst hm2
  exact Or.inl rfl

theorem mem_zipWith_cases {α β γ : Type} (f : α → β → γ) :
    ∀ (l1 : List α) (l2 : List β) (x : γ), x ∈ List.zipWith f l1 l2 →
      ∃ a b, a ∈ l1 ∧ b ∈ l2 ∧ x = f a b := by
  intro l1
  induction l1 with
  | nil =>
    intro l2 x hx
    simp at hx
  | cons a t ih =>
    intro l2 x hx
    cases l2 with
    | nil => simp at hx
    | cons b t2 =>
      rcases List.mem_cons.mp hx with h1 | h1
      · exact ⟨a, b, by simp, by simp, h1⟩
      · obtain ⟨a1, b1, ha, hb, hx1⟩ := ih t2 x h1
        exact ⟨a1, b1, List.mem_cons_of_mem _ ha, List.mem_cons_of_mem _ hb, hx1⟩

theorem lookup_conversation_mem (convs : List (String × Conversation))
    (pid : String) (c : Conversation)
    (h : lookup_conversation convs pid = some c) : ∃ k, (k, c) ∈ convs := by
  unfold lookup_conversation at h
  cases hf : convs.find? (fun pc => pc.1 == pid) with
  | none =>
    rw [hf] at h
    exact Option.noConfusion h
  | some pc =>
    rw [hf] at h
    have hmem := List.mem_of_find?_eq_some hf
    have hc : pc.2 = c := Option.some.inj h
    subst hc
    exact ⟨pc.1, hmem⟩

theorem collect_insights_nil (ps : List Persona)
    (convs : List (String × Conversation))
    (h : ∀ pc ∈ convs, pc.2.insights = []) : collect_insights ps convs = [] := by
  induction ps with
  | nil => rfl
  | cons p rest ih =>
    simp only [collect_insights, List.flatMap_cons] at ih ⊢
    rw [ih]
    cases hl : lookup_conversation convs p.id with
    | none => simp
    | some c =>
      obtain ⟨k, hk⟩ := lookup_conversation_mem convs p.id c hl
      have hc : c.insights = [] := h (k, c) hk
      simp [hc]

theorem finish_run_fields (w : World) (id : String) (s : SimState)
    (ts : List Nat) (tEnd : Nat) :
    (finish_run w id s ts tEnd).status = "completed" ∧
    (finish_run w id s ts tEnd).personas = s.personas ∧
    (finish_run w id s ts tEnd).conversations = List.zipWith
      (fun (p : Persona) (t : Nat) =>
        (p.id, drive_conversation (w.iv id p.id) s.context p t)) s.personas ts ∧
    (finish_run w id s ts tEnd).aggregated_insights =
      (if (collect_insights s.personas (List.zipWith
            (fun (p : Persona) (t : Nat) =>
              (p.id, drive_conversation (w.iv id p.id) s.context p t))
            s.personas ts)).isEmpty
       then s.aggregated_insights
       else aggregate_insights (w.agg id)
         (collect_insights s.personas (List.zipWith
            (fun (p : Persona) (t : Nat) =>
              (p.id, drive_conversation (w.iv id p.id) s.context p t))
            s.personas ts))) :=
  ⟨rfl, rfl, rfl, rfl⟩

/-- C10: for a simulation with `num_personas = 0` whose generation task is
running, `generate_personas` cannot return a persona list (the expansion
pool is built with `min(0, 5) = 0` workers and the constructor raises
ValueError), so the only available generation step sets status "error" with
the raised message captured — and an "error" status is permanent, so the
simulation never reaches "ready". -/
theorem claim_zero_personas_error (w : World) (m : Sims) (id : String)
    (s : SimState) (hR : ReachableW w m) (hm : m id = some s)
    (hg : s.genPhase = .launched) (hN : s.num_personas = 0) :
    (∀ order ps,
        ¬ generate_personas (w.gen id) s.context s.num_personas order = .ok ps) ∧
    Step w m (updateSim m id
      { s with
        status := "error", error := some "max_workers must be greater than 0",
        genPhase := .done }) ∧
    (∀ m1, Relation.ReflTransGen (Step w) (updateSim m id
        { s with
          status := "error", error := some "max_workers must be greater than 0",
          genPhase := .done }) m1 →
      ∀ s2, m1 id = some s2 → s2.status = "error") := by
  have hInv := reachable_inv w m hR
  have hstep : Step w m (updateSim m id
      { s with
        status := "error", error := some "max_workers must be greater than 0",
        genPhase := .done }) := by
    refine Step.genFail m id s [] "max_workers must be greater than 0" hm hg ?_ ?_
    · rw [hN]
      simp
    · rw [hN]
      exact generate_personas_raises _ _ _
  refine ⟨?_, hstep, ?_⟩
  · intro order ps h
    rw [hN, generate_personas_raises] at h
    exact Except.noConfusion h
  · intro m1 hrtg s2 hm1
    have hInv2 := inv_step w m _ hInv hstep
    obtain ⟨s3, hm3, he3⟩ := error_frozen w hrtg hInv2 id _
      (updateSim_self _ _ _) rfl
    rw [hm1] at hm3
    have hss : s3 = s2 := Option.some.inj hm3.symm
    subst hss
    exact he3

/-- A simulation created with zero personas, after the synchronous part of
`_generate_personas_async`. -/
def zeroSimGen : SimState :=
  { newSim "ctx" 0 3 with status := "generating_personas", genPhase := .launched }

/-- The registry holding only that zero-persona simulation. -/
def zeroSims2 : Sims :=
  updateSim (create_simulation initSims "sim0" "ctx" 0 3) "sim0" zeroSimGen

theorem zeroSims2_reachable : ReachableW allFailWorld zeroSims2 :=
  Relation.ReflTransGen.tail
    (Relation.ReflTransGen.single (Step.create initSims "sim0" "ctx" 0 3 rfl))
    (Step.scheduleGen _ "sim0" (newSim "ctx" 0 3) (updateSim_self _ _ _) rfl)

theorem claim_zero_personas_error_witness :
    (¬ generate_personas (allFailWorld.gen "sim0") zeroSimGen.context
        zeroSimGen.num_personas [] = .ok []) ∧
    Step allFailWorld zeroSims2 (updateSim zeroSims2 "sim0"
      { zeroSimGen with
        status := "error", error := some "max_workers must be greater than 0",
        genPhase := .done }) :=
  ⟨(claim_zero_personas_error allFailWorld zeroSims2 "sim0" zeroSimGen
      zeroSims2_reachable (updateSim_self _ _ _) rfl rfl).1 [] [],
   (claim_zero_personas_error allFailWorld zeroSims2 "sim0" zeroSimGen
      zeroSims2_reachable (updateSim_self _ _ _) rfl rfl).2.1⟩

/-- The persona list produced under an all-failing oracle. -/
def allfailPersonas (context : String) (N : Nat) : List Persona :=
  (List.range N).map (expand_at allFailGenEnv context
    (reflect_on_personas allFailGenEnv.reflect_out context N))

/-- Trace state: generation scheduled and running. -/
def genPhaseSim (context : String) (N mt : Nat) : SimState :=
  { newSim context N mt with
    status := "generating_personas", genPhase := .launched }

/-- Trace state: all-fallback personas stored, simulation ready. -/
def readySim (context : String) (N mt : Nat) : SimState :=
  { genPhaseSim context N mt with
    status := "ready", personas := allfailPersonas context N, genPhase := .done }

/-- Trace state: started. -/
def runningSim (context : String) (N mt : Nat) : SimState :=
  { readySim context N mt with
    status := "running", start_time := some 0, runPhase := .launched }

/-- Trace registries of the all-ServiceError scenario. -/
def afM1 (id context : String) (N mt : Nat) : Sims :=
  create_simulation initSims id context N mt

def afM2 (id context : String) (N mt : Nat) : Sims :=
  updateSim (afM1 id context N mt) id (genPhaseSim context N mt)

def afM3 (id context : String) (N mt : Nat) : Sims :=
  updateSim (afM2 id context N mt) id (readySim context N mt)

def afM4 (id context : String) (N mt : Nat) : Sims :=
  updateSim (afM3 id context N mt) id (runningSim context N mt)

def afM5 (id context : String) (N mt : Nat) : Sims :=
  updateSim (afM4 id context N mt) id
    (finish_run allFailWorld id (runningSim context N mt) (List.replicate N mt) 1)

theorem afM3_reachable (id context : String) (N mt : Nat) (hne : N ≠ 0) :
    ReachableW allFailWorld (afM3 id context N mt) :=
  Relation.ReflTransGen.tail
    (Relation.ReflTransGen.tail
      (Relation.ReflTransGen.single (Step.create initSims id context N mt rfl))
      (Step.scheduleGen _ id (newSim context N mt) (updateSim_self _ _ _) rfl))
    (Step.genOk _ id (genPhaseSim context N mt) (List.range N)
      (allfailPersonas context N) (updateSim_self _ _ _) rfl (List.Perm.refl _)
      (generate_personas_ok allFailGenEnv context N (List.range N) hne))

theorem allfailPersonas_length (context : String) (N : Nat) :
    (allfailPersonas context N).length = N := by
  simp [allfailPersonas]

theorem afM5_reachable (id context : String) (N mt : Nat) (hne : N ≠ 0) :
    ReachableW allFailWorld (afM5 id context N mt) := by
  refine Relation.ReflTransGen.tail (Relation.ReflTransGen.tail
    (afM3_reachable id context N mt hne)
    (Step.start _ id 0 (readySim context N mt) (updateSim_self _ _ _) rfl)) ?_
  refine Step.runDone _ id (runningSim context N mt) (List.replicate N mt) 1
    (updateSim_self _ _ _) rfl ?_ ?_
  · show (List.replicate N mt).length = (allfailPersonas context N).length
    rw [List.length_replicate, allfailPersonas_length]
  · intro t ht
    rw [List.eq_of_mem_replicate ht]
    exact Nat.le_refl mt

/-- C5 amended (scenario 3, for `num_personas ≥ 1`): when every external
text-generation call fails with ServiceError, a simulation still reaches
status "ready" with all-fallback personas, and after starting reaches
"completed" with only fixed fallback/placeholder dialogue messages, a
summary on every conversation and an empty aggregated-insight list; and no
simulation with at least one requested persona ever has status "error". -/
theorem claim_allfail_completes (context : String) (N mt : Nat) (id : String)
    (hN : 1 ≤ N) :
    (∃ m s, ReachableW allFailWorld m ∧ m id = some s ∧ s.status = "ready" ∧
       s.personas.length = N ∧
       ∀ p ∈ s.personas, ∃ o u, p = create_fallback_persona context (some o) u) ∧
    (∃ m s, ReachableW allFailWorld m ∧ m id = some s ∧ s.status = "completed" ∧
       s.aggregated_insights = [] ∧ s.conversations.length = N ∧
       ∀ pc ∈ s.conversations, pc.2.summary.isSome = true ∧
         ∃ p ∈ s.personas, pc.1 = p.id ∧
           ∀ msg ∈ pc.2.messages,
             msg.content = fallback_opening context p ∨
             msg.content = persona_placeholder ∨
             msg.content = interviewer_placeholder) ∧
    (∀ m, ReachableW allFailWorld m → ∀ i s, m i = some s →
       1 ≤ s.num_personas → s.status ≠ "error") := by
  have hne : N ≠ 0 := by omega
  refine ⟨?_, ?_, ?_⟩
  · refine ⟨afM3 id context N mt, readySim context N mt,
      afM3_reachable id context N mt hne, updateSim_self _ _ _, rfl,
      allfailPersonas_length context N, ?_⟩
    intro p hp
    have hp2 : p ∈ allfailPersonas context N := hp
    obtain ⟨i, hi, rfl⟩ := List.mem_map.mp hp2
    exact ⟨_, _, rfl⟩
  · have hconv : ∀ pc ∈ List.zipWith
        (fun (p : Persona) (t : Nat) =>
          (p.id, drive_conversation (allFailWorld.iv id p.id)
            (runningSim context N mt).context p t))
        (runningSim context N mt).personas (List.replicate N mt),
        pc.2.insights = [] := by
      intro pc hpc
      obtain ⟨p, t, hp, ht, rfl⟩ := mem_zipWith_cases _ _ _ _ hpc
      exact drive_conversation_insights_allfail context p t
    have hcoll := collect_insights_nil (runningSim context N mt).personas _ hconv
    have hff := finish_run_fields allFailWorld id (runningSim context N mt)
      (List.replicate N mt) 1
    refine ⟨afM5 id context N mt, _, afM5_reachable id context N mt hne,
      updateSim_self _ _ _, hff.1, ?_, ?_, ?_⟩
    · rw [hff.2.2.2, hcoll]
      rfl
    · rw [hff.2.2.1, List.length_zipWith, List.length_replicate]
      have hlen : (runningSim context N mt).personas.length = N :=
        allfailPersonas_length context N
      rw [hlen]
      exact Nat.min_self N
    · intro pc hpc
      rw [hff.2.2.1] at hpc
      obtain ⟨p, t, hp, ht, rfl⟩ := mem_zipWith_cases _ _ _ _ hpc
      refine ⟨drive_conversation_summary_some _ _ _ _, p, ?_, rfl, ?_⟩
      · rw [hff.2.1]
        exact hp
      · exact drive_conversation_content_allfail context p t
  · intro m hr i s hm hNp he
    have h0 := (reachable_inv allFailWorld m hr i s hm).2.2.2.2 he
    omega

/-- C5 counterexample: under the very same all-ServiceError oracle, a
simulation created with `num_personas = 0` reaches status "error" (the
expansion pool constructor raises before any fallback can apply), so the
claim as stated — "a simulation ... never reaches status error" — is false
without the `num_personas ≥ 1` proviso. -/
theorem claim_allfail_cex :
    ∃ m s, ReachableW allFailWorld m ∧ m "sim0" = some s ∧
      s.status = "error" ∧ s.num_personas = 0 :=
  ⟨_, _,
   Relation.ReflTransGen.tail zeroSims2_reachable
     (Step.genFail _ "sim0" zeroSimGen [] "max_workers must be greater than 0"
       (updateSim_self _ _ _) rfl (by simp [zeroSimGen, newSim])
       (generate_personas_raises allFailGenEnv "ctx" [])),
   updateSim_self _ _ _, rfl, rfl⟩

theorem claim_allfail_completes_witness :
    (readySim "dog walking app" 1 2).status ≠ "error" :=
  (claim_allfail_completes "dog walking app" 1 2 "sim1" (by decide)).2.2
    (afM3 "sim1" "dog walking app" 1 2)
    (afM3_reachable "sim1" "dog walking app" 1 2 (by decide))
    "sim1" (readySim "dog walking app" 1 2) (updateSim_self _ _ _) (by decide)
